import Mathlib

/-!
Verification of the runtime prop-type validator of `geminis-front`
(`src/hooks` utility `usePropTypes`): a shallow embedding in Lean 4 of the
`validators` object (string/number/bool/array/object/undefined/null/function,
arrayOf, oneOf, oneOfType, instanceOf, shape, range), of the descriptor
dispatch `validateType`, and proofs of the specified properties.

Modelling conventions:
* JavaScript runtime values are the inductive `Value`.  Numbers are `Int`
  (no claim involves fractional values, NaN or signed zero); a function
  value carries an abstract identity tag and its source text is abstracted.
  Structurally equal objects are identified (the embedding has no heap, so
  reference identity degenerates to structural equality).
* A validator returns `true` or an error-message string in the source; this
  sum is `VResult`.  The single `throw` of `validateType` is embedded as the
  `Except.error` channel; every returned value (success or message) is
  `Except.ok`.
* `instanceof` and `Function.prototype.name` depend on the prototype chain,
  which the embedding abstracts as parameters `isInst` and `className`.
-/

namespace UsePropTypes

/-- A JavaScript runtime value, as the validator discriminates them:
strings, numbers, booleans, arrays, plain objects (insertion-ordered
key/value pairs), `undefined`, `null`, and functions. -/
inductive Value where
  | str (s : String)
  | num (n : Int)
  | bool (b : Bool)
  | arr (elems : List Value)
  | obj (fields : List (String × Value))
  | undef
  | null
  | func (id : Nat)
deriving Repr

mutual

/-- Structural equality on `Value` (the embedding of `===` / SameValueZero on
data without reference identity). -/
def valueBeq : Value → Value → Bool
  | .str a, .str b => a == b
  | .num a, .num b => a == b
  | .bool a, .bool b => a == b
  | .arr xs, .arr ys => valueListBeq xs ys
  | .obj fs, .obj gs => valueFieldsBeq fs gs
  | .undef, .undef => true
  | .null, .null => true
  | .func a, .func b => a == b
  | _, _ => false

/-- Elementwise `valueBeq` on lists. -/
def valueListBeq : List Value → List Value → Bool
  | [], [] => true
  | x :: xs, y :: ys => valueBeq x y && valueListBeq xs ys
  | _, _ => false

/-- Pairwise `valueBeq` on key/value field lists. -/
def valueFieldsBeq : List (String × Value) → List (String × Value) → Bool
  | [], [] => true
  | (k, v) :: fs, (l, w) :: gs => k == l && (valueBeq v w && valueFieldsBeq fs gs)
  | _, _ => false

end

theorem valueBeq_iff : ∀ (a b : Value), valueBeq a b = true ↔ a = b := by
  apply valueBeq.induct
    (motive_1 := fun a b => valueBeq a b = true ↔ a = b)
    (motive_2 := fun fs gs => valueFieldsBeq fs gs = true ↔ fs = gs)
    (motive_3 := fun xs ys => valueListBeq xs ys = true ↔ xs = ys)
  case case1 => intro a b; simp [valueBeq]
  case case2 => intro a b; simp [valueBeq]
  case case3 => intro a b; simp [valueBeq]
  case case4 => intro xs ys ih; simpa [valueBeq] using ih
  case case5 => intro fs gs ih; simpa [valueBeq] using ih
  case case6 => simp [valueBeq]
  case case7 => simp [valueBeq]
  case case8 => intro a b; simp [valueBeq]
  case case9 =>
    intro t x h1 h2 h3 h4 h5 h6 h7 h8
    cases t <;> cases x <;> simp [valueBeq] <;> first
      | exact (h4 _ _ rfl rfl).elim
      | exact (h5 _ _ rfl rfl).elim
  case case10 => simp [valueListBeq]
  case case11 =>
    intro x xs y ys ih1 ih2
    simp [valueListBeq, ih1, ih2]
  case case12 =>
    intro t x h1 h2
    match t, x with
    | [], [] => exact (h1 rfl rfl).elim
    | a :: as, [] => simp [valueListBeq]
    | [], a :: as => simp [valueListBeq]
    | a :: as, b :: bs => exact ((h2 a as b bs rfl rfl)).elim
  case case13 => simp [valueFieldsBeq]
  case case14 =>
    intro k v fs l w gs ih1 ih2
    simp [valueFieldsBeq, ih1, ih2, Prod.ext_iff]
    tauto
  case case15 =>
    intro t x h1 h2
    match t, x with
    | [], [] => exact (h1 rfl rfl).elim
    | a :: as, [] => simp [valueFieldsBeq]
    | [], a :: as => simp [valueFieldsBeq]
    | (k, v) :: as, (l, w) :: bs => exact ((h2 k v as l w bs rfl rfl)).elim

instance : DecidableEq Value := fun a b =>
  decidable_of_iff (valueBeq a b = true) (valueBeq_iff a b)

/-- JavaScript property access `o[key]` on a plain object: the value stored
under `key`, and `undefined` when the key is absent (JS objects have at most
one entry per key, so the first match is the entry). -/
def getField (fields : List (String × Value)) (key : String) : Value :=
  match fields with
  | [] => .undef
  | (k, v) :: rest => if k = key then v else getField rest key

mutual

/-- JavaScript string coercion `String(v)` as a template literal performs it:
`"[object Object]"` for plain objects, `join(",")` for arrays (with `null`
and `undefined` elements becoming empty), the usual spellings otherwise.
A function coerces to its source text, which the embedding abstracts. -/
def jsToString : Value → String
  | .str s => s
  | .num n => toString n
  | .bool b => if b then "true" else "false"
  | .arr xs => jsJoin xs
  | .obj _ => "[object Object]"
  | .undef => "undefined"
  | .null => "null"
  | .func _ => "function"

/-- JavaScript `Array.prototype.join(",")`. -/
def jsJoin : List Value → String
  | [] => ""
  | [x] => jsJoinElem x
  | x :: xs => jsJoinElem x ++ "," ++ jsJoin xs

/-- One element under `join`: `null` and `undefined` print as empty. -/
def jsJoinElem : Value → String
  | .null => ""
  | .undef => ""
  | v => jsToString v

end

/-- One character of a JSON string literal, escaped as `JSON.stringify`
escapes it. -/
def jsonEscapeChar (c : Char) : String :=
  if c = '"' then "\\\""
  else if c = '\\' then "\\\\"
  else if c = '\n' then "\\n"
  else if c = '\t' then "\\t"
  else if c = '\r' then "\\r"
  else String.singleton c

/-- A JSON string literal: the text between double quotes, escaped. -/
def jsonQuote (s : String) : String :=
  "\"" ++ String.join (s.toList.map jsonEscapeChar) ++ "\""

mutual

/-- JavaScript `JSON.stringify(v)`: `none` where JavaScript yields `undefined`
(top-level `undefined` or function). Inside arrays such elements serialize
as `null`; inside objects the entry is skipped. -/
def jsonStringify : Value → Option String
  | .str s => some (jsonQuote s)
  | .num n => some (toString n)
  | .bool b => some (if b then "true" else "false")
  | .arr xs => some ("[" ++ String.intercalate "," (jsonArrayItems xs) ++ "]")
  | .obj fs => some ("\x7b" ++ String.intercalate "," (jsonObjectItems fs) ++ "\x7d")
  | .undef => none
  | .null => some "null"
  | .func _ => none

/-- The serialized elements of an array (`undefined`/function become `null`). -/
def jsonArrayItems : List Value → List String
  | [] => []
  | x :: xs =>
    ((jsonStringify x).getD "null") :: jsonArrayItems xs

/-- The serialized `"key":value` entries of an object (entries whose value
serializes to `undefined` are skipped). -/
def jsonObjectItems : List (String × Value) → List String
  | [] => []
  | (k, v) :: fs =>
    match jsonStringify v with
    | some s => (jsonQuote k ++ ":" ++ s) :: jsonObjectItems fs
    | none => jsonObjectItems fs

end

/-- The call `JSON.stringify(v)` interpolated into a template literal: the string
`"undefined"` where the call yields the value `undefined`. -/
def jsonTemplate (v : Value) : String :=
  (jsonStringify v).getD "undefined"

/-- Serialization `JSON.stringify` of an array of plain strings (used on key lists and
type-name lists). -/
def jsonStringList (xs : List String) : String :=
  "[" ++ String.intercalate "," (xs.map jsonQuote) ++ "]"

/-- The result of one validator call: the source returns `true` on success
and an error-message string on failure. -/
inductive VResult where
  | ok
  | err (msg : String)
deriving DecidableEq, Repr

/-- The eight primitive kind tags of the `BasicType` union in the source. -/
inductive BasicKind where
  | string
  | number
  | bool
  | array
  | object
  | undefined
  | null
  | function
deriving DecidableEq, Repr

/-- The kind tag as the string the source stores in `BasicValidator.type`. -/
def kindName : BasicKind → String
  | .string => "string"
  | .number => "number"
  | .bool => "bool"
  | .array => "array"
  | .object => "object"
  | .undefined => "undefined"
  | .null => "null"
  | .function => "function"

namespace validators

/-- Source `validators.string`: `typeof prop === 'string'`. -/
def string (prop : Value) : VResult :=
  match prop with
  | .str _ => .ok
  | _ => .err ("El valor '" ++ jsToString prop ++ "' no es una cadena de texto (string).")

/-- Source `validators.number`: `typeof prop === 'number'`. -/
def number (prop : Value) : VResult :=
  match prop with
  | .num _ => .ok
  | _ => .err ("El valor '" ++ jsToString prop ++ "' no es un número.")

/-- Source `validators.bool`: `typeof prop === 'boolean'`. -/
def bool (prop : Value) : VResult :=
  match prop with
  | .bool _ => .ok
  | _ => .err ("El valor '" ++ jsToString prop ++ "' no es un booleano.")

/-- Source `validators.array`: `Array.isArray(prop)`. -/
def array (prop : Value) : VResult :=
  match prop with
  | .arr _ => .ok
  | _ => .err ("El valor '" ++ jsToString prop ++ "' no es un arreglo.")

/-- Source `validators.object`: `prop !== null && typeof prop === 'object' &&
!Array.isArray(prop)` — exactly the plain objects. -/
def object (prop : Value) : VResult :=
  match prop with
  | .obj _ => .ok
  | _ => .err ("El valor '" ++ jsToString prop ++ "' no es un objeto.")

/-- Source `validators.undefined`: `typeof prop === 'undefined'`. -/
def undefined (prop : Value) : VResult :=
  match prop with
  | .undef => .ok
  | _ => .err ("El valor '" ++ jsToString prop ++ "' no es undefined.")

/-- Source `validators.null`: `prop === null`. -/
def null (prop : Value) : VResult :=
  match prop with
  | .null => .ok
  | _ => .err ("El valor '" ++ jsToString prop ++ "' no es null.")

/-- Source `validators.function`: `typeof prop === 'function'`. -/
def function (prop : Value) : VResult :=
  match prop with
  | .func _ => .ok
  | _ => .err ("El valor '" ++ jsToString prop ++ "' no es una función.")

end validators

/-- The lookup `validators[k]` for a primitive kind tag `k`. -/
def validateBasic : BasicKind → Value → VResult
  | .string => validators.string
  | .number => validators.number
  | .bool => validators.bool
  | .array => validators.array
  | .object => validators.object
  | .undefined => validators.undefined
  | .null => validators.null
  | .function => validators.function

/-- The tag `typeof prop`, as JavaScript computes it (`null` and arrays are
`'object'`). -/
def typeofStr : Value → String
  | .str _ => "string"
  | .num _ => "number"
  | .bool _ => "boolean"
  | .arr _ => "object"
  | .obj _ => "object"
  | .undef => "undefined"
  | .null => "object"
  | .func _ => "function"

namespace validators

/-- Source `validators.type`: the first of the eight tag names whose validator
accepts the value, with `typeof` as (unreachable) fallback. -/
def type (prop : Value) : String :=
  if array prop = .ok then "array"
  else if object prop = .ok then "object"
  else if null prop = .ok then "null"
  else if undefined prop = .ok then "undefined"
  else if string prop = .ok then "string"
  else if number prop = .ok then "number"
  else if bool prop = .ok then "bool"
  else if function prop = .ok then "function"
  else typeofStr prop

/-- Source `validators.arrayOf(types)(prop)`.  The member list carries primitive
kind tags, as the typed API (`ArrayOfValidator.types : BasicValidator[]`,
unwrapped to tag strings by `validateType`) supplies them; for such a list
the source's `typeof validators[type] === 'function'` membership check is
identically true and is omitted. -/
def arrayOf (types : List BasicKind) (prop : Value) : VResult :=
  if types.length = 0 then
    .err "El array de tipos proporcionado a arrayOf no puede estar vacío."
  else
    match prop with
    | .arr items =>
      let invalidItems :=
        items.filter (fun item => !(types.any (fun t => validateBasic t item == VResult.ok)))
      if invalidItems.length = 0 then .ok
      else .err ("El arreglo contiene elementos inválidos: " ++ jsonTemplate (.arr invalidItems))
    | _ => .err ("El valor '" ++ jsToString prop ++ "' no es un arreglo.")

/-- Source `validators.oneOf(options)(prop)`: `options.includes(prop)` (the
`Array.isArray(options)` guard is identically true for a list). -/
def oneOf (options : List Value) (prop : Value) : VResult :=
  if options.length = 0 then
    .err "El array de opciones proporcionado a oneOf no puede estar vacío."
  else if options.contains prop then .ok
  else
    .err ("El valor '" ++ jsToString prop ++ "' no está entre las opciones permitidas: "
      ++ jsonTemplate (.arr options))

/-- Source `validators.oneOfType(types)(prop)`: a single member delegates to its
validator; otherwise `types.some(...)` decides (the source evaluates the
`some` twice, returning the same answer). -/
def oneOfType (types : List BasicKind) (prop : Value) : VResult :=
  match types with
  | [] => .err "El array de tipos proporcionado a oneOfType no puede estar vacío."
  | [t] => validateBasic t prop
  | ts =>
    if ts.any (fun t => validateBasic t prop == VResult.ok) then .ok
    else if ts.any (fun t => validateBasic t prop == VResult.ok) then .ok
    else
      .err ("El valor '" ++ jsToString prop ++ "' no cumple con ninguno de los tipos permitidos: "
        ++ jsonTemplate (.arr (ts.map (fun t => .str (kindName t)))))

/-- Source `validators.instanceOf(clazz)(prop)`: `clazz` must be a function, `prop`
a non-null `typeof === 'object'` value, then `prop instanceof clazz`
decides.  The prototype-chain walk and `clazz.name` live outside plain data,
so the embedding takes them as parameters `isInst` and `className`. -/
def instanceOf (isInst : Value → Value → Bool) (className : Value → String)
    (clazz : Value) (prop : Value) : VResult :=
  match clazz with
  | .func _ =>
    match prop with
    | .obj _ | .arr _ =>
      if isInst clazz prop then .ok
      else .err ("El valor '" ++ jsToString prop ++ "' no es una instancia de "
        ++ className clazz ++ ".")
    | _ => .err ("El valor '" ++ jsToString prop ++ "' no es un objeto.")
  | _ => .err "El validador instanceOf no es válido. Se esperaba una clase."

/-- Source `validators.range(min, max)(prop)`.  The `typeof min/max` guard is
identically true for integer parameters; the source then checks the bound
twice (once negated, once positively), both kept. -/
def range (min max : Int) (prop : Value) : VResult :=
  if min > max then .err "El valor min no puede ser mayor que el valor max."
  else
    match prop with
    | .num n =>
      if n < min ∨ n > max then
        .err ("El valor '" ++ toString n ++ "' no está dentro del rango esperado: ["
          ++ toString min ++ ", " ++ toString max ++ "]")
      else if n ≥ min ∧ n ≤ max then .ok
      else
        .err ("El valor '" ++ toString n ++ "' no está dentro del rango esperado: ["
          ++ toString min ++ ", " ++ toString max ++ "]")
    | p => .err ("El valor '" ++ jsToString p ++ "' no es un número.")

end validators

/-- A field descriptor inside a `shape` object, as the per-field loop of
`validators.shape` discriminates them: a string naming a primitive
validator; an object carrying a `validator` tag (the forms the typed API
builds: `oneOf`, `range`, and an explicit `shape` with its own strictness);
a plain object, treated as a nested shape; or an array of alternatives. -/
inductive FieldSpec where
  | basic (k : BasicKind)
  | vOneOf (options : List Value)
  | vRange (min max : Int)
  | vShape (shapeObj : List (String × FieldSpec)) (strict : Int)
  | nested (fields : List (String × FieldSpec))
  | alts (specs : List FieldSpec)
deriving Repr

/-- Source `Array.isArray(shapeObj[key]) ? shapeObj[key] : [shapeObj[key]]`: the
list of alternatives a declared field is checked against. -/
def toAlts : FieldSpec → List FieldSpec
  | .alts ds => ds
  | d => [d]

theorem sizeOf_toAlts_le (d : FieldSpec) : sizeOf (toAlts d) ≤ 2 + sizeOf d := by
  cases d <;> simp [toAlts] <;> omega

mutual

/-- Serialization `JSON.stringify` of the JavaScript value a `FieldSpec` stands for. -/
def stringifySpec : FieldSpec → String
  | .basic k => jsonQuote (kindName k)
  | .vOneOf options =>
    "\x7b\"validator\":\"oneOf\",\"options\":" ++ jsonTemplate (.arr options) ++ "\x7d"
  | .vRange mn mx =>
    "\x7b\"validator\":\"range\",\"min\":" ++ toString mn ++ ",\"max\":" ++ toString mx ++ "\x7d"
  | .vShape so st =>
    "\x7b\"validator\":\"shape\",\"shapeObj\":\x7b"
      ++ String.intercalate "," (stringifyShapeObjItems so)
      ++ "\x7d,\"strict\":" ++ toString st ++ "\x7d"
  | .nested fields =>
    "\x7b" ++ String.intercalate "," (stringifyShapeObjItems fields) ++ "\x7d"
  | .alts ds => "[" ++ String.intercalate "," (stringifySpecItems ds) ++ "]"

/-- The serialized `"key":spec` entries of a shape object. -/
def stringifyShapeObjItems : List (String × FieldSpec) → List String
  | [] => []
  | (k, d) :: rest => (jsonQuote k ++ ":" ++ stringifySpec d) :: stringifyShapeObjItems rest

/-- The serialized elements of an alternatives array. -/
def stringifySpecItems : List FieldSpec → List String
  | [] => []
  | d :: ds => stringifySpec d :: stringifySpecItems ds

end

/-- One entry of `expectedTypes`: a string alternative stays bare, any other
is `JSON.stringify`ed. -/
def expectedTypeStr : FieldSpec → String
  | .basic k => kindName k
  | d => stringifySpec d

/-- The per-field failure message of `validators.shape`. -/
def keyFailMsg (key : String) (types : List FieldSpec) (v : Value) : String :=
  "La clave '" ++ key ++ "' del objeto no cumple con los tipos esperados. Valor recibido: "
    ++ jsonTemplate (.str (validators.type v)) ++ ". Tipos esperados: "
    ++ String.intercalate ", " (types.map expectedTypeStr) ++ "."

/-- Source `validators.shape`'s message for a non-object value. -/
def notObjectMsg (prop : Value) : String :=
  "El valor proporcionado no es un objeto. Valor recibido: " ++ jsonTemplate prop ++ "."

/-- Source `validators.shape`'s message for a strictness outside 0..2. -/
def strictInvalidMsg : String :=
  "El valor de strict proporcionado a shape no es válido. Debe ser 0, 1 o 2."

/-- The strict-2 message for a key-count mismatch. -/
def keyCountMsg (keys propKeys : List String) : String :=
  "El objeto tiene claves adicionales o faltantes. Claves esperadas: " ++ jsonStringList keys
    ++ ", claves recibidas: " ++ jsonStringList propKeys ++ "."

/-- The message for forbidden extra keys (strict 1 and 2). -/
def extraKeysMsg (extraKeys : List String) : String :=
  "El objeto tiene claves adicionales no permitidas: " ++ jsonStringList extraKeys
    ++ ". Elimina estas claves: " ++ jsonStringList extraKeys ++ "."

/-- The strict-1 message when no declared key is present. -/
def atLeastOneKeyMsg (keys : List String) : String :=
  "El objeto debe tener al menos una clave de las esperadas: " ++ jsonStringList keys ++ "."

mutual

/-- One alternative of the per-field `types.some(...)` callback of
`validators.shape`: a known validator-name string applies its validator; a
`validator`-tagged object applies that validator to the remaining fields; a
plain object recurses as a nested shape **with the outer strictness**; an
array alternative matches no branch and yields `false`. -/
def altOk (strict : Int) (v : Value) (d : FieldSpec) : Bool :=
  match d with
  | .basic k => validateBasic k v == VResult.ok
  | .vOneOf options => validators.oneOf options v == VResult.ok
  | .vRange mn mx => validators.range mn mx v == VResult.ok
  | .vShape so st => shape so st v == VResult.ok
  | .nested fields => shape fields strict v == VResult.ok
  | .alts _ => false
termination_by 4 * sizeOf d
decreasing_by
  all_goals simp_wf
  all_goals omega

/-- Source `types.some(...)` over the alternatives of one declared field. -/
def anyAltOk (strict : Int) (v : Value) (ds : List FieldSpec) : Bool :=
  match ds with
  | [] => false
  | d :: rest => altOk strict v d || anyAltOk strict v rest
termination_by 4 * sizeOf ds + 1
decreasing_by
  all_goals simp_wf
  all_goals omega

/-- The `for (let key of keys)` loop of `validators.shape`: each declared
key's value (`undefined` when absent) must satisfy one of its
alternatives. -/
def checkFields (strict : Int) (propFields : List (String × Value))
    (shapeObj : List (String × FieldSpec)) : VResult :=
  match shapeObj with
  | [] => .ok
  | (key, spec) :: rest =>
    if anyAltOk strict (getField propFields key) (toAlts spec) then
      checkFields strict propFields rest
    else .err (keyFailMsg key (toAlts spec) (getField propFields key))
termination_by 4 * sizeOf shapeObj + 2
decreasing_by
  all_goals simp_wf
  all_goals (have h := sizeOf_toAlts_le d; omega)

/-- Source `validators.shape(shapeObj, strict)(prop)`.  The embedding's `shapeObj`
is always a non-null non-array object, so the source's first guard is
identically false and omitted; likewise `validators.number(strict)` always
succeeds for an integer strictness.  The remaining steps are kept in source
order: non-object value, strictness out of 0..2, the strict-2 key-count and
extra-key checks, the strict-1 extra-key and at-least-one-key checks, then
the per-field loop. -/
def shape (shapeObj : List (String × FieldSpec)) (strict : Int) (prop : Value) : VResult :=
  match prop with
  | .obj propFields =>
    if strict < 0 ∨ strict > 2 then .err strictInvalidMsg
    else
      let keys := shapeObj.map Prod.fst
      let propKeys := propFields.map Prod.fst
      if strict = 2 ∧ propKeys.length ≠ keys.length then
        .err (keyCountMsg keys propKeys)
      else if strict = 2 ∧ (propKeys.filter (fun k => !(keys.contains k))).length > 0 then
        .err (extraKeysMsg (propKeys.filter (fun k => !(keys.contains k))))
      else if strict = 1 ∧ (propKeys.filter (fun k => !(keys.contains k))).length > 0 then
        .err (extraKeysMsg (propKeys.filter (fun k => !(keys.contains k))))
      else if strict = 1 ∧ !(keys.any (fun k => !(getField propFields k == Value.undef))) then
        .err (atLeastOneKeyMsg keys)
      else checkFields strict propFields shapeObj
  | p => .err (notObjectMsg p)
termination_by 4 * sizeOf shapeObj + 3
decreasing_by
  all_goals simp_wf

end

/-- A type descriptor as `validateType` dispatches on it: either a
primitive-kind tag (a `BasicValidator` or a bare tag string), one of the
`validator`-tagged records of the typed API, or an unrecognized tag, on
which the `switch` falls into its `default` branch. -/
inductive Descriptor where
  | basic (k : BasicKind)
  | arrayOfD (types : List BasicKind)
  | oneOfD (options : List Value)
  | oneOfTypeD (types : List BasicKind)
  | instanceOfD (clazz : Value)
  | shapeD (shapeObj : List (String × FieldSpec)) (strict : Int)
  | rangeD (min max : Int)
  | unknownD (kind : String)
deriving Repr

/-- The `validateType` dispatch inside `usePropTypes`.  A `throw` is the
`Except.error` channel; every returned value — success or failure message —
is `Except.ok`.  For `arrayOf` and `oneOfType` the member descriptors are
unwrapped `BasicValidator`s, so the `processedTypes` membership check is
identically true and the corresponding branch is dead.  The prototype-chain
parameters `isInst`/`className` are threaded to `instanceOf`. -/
def validateType (isInst : Value → Value → Bool) (className : Value → String) :
    Descriptor → Value → Except String VResult
  | .basic k, prop => .ok (validateBasic k prop)
  | .arrayOfD types, prop => .ok (validators.arrayOf types prop)
  | .oneOfD options, prop => .ok (validators.oneOf options prop)
  | .oneOfTypeD types, prop => .ok (validators.oneOfType types prop)
  | .instanceOfD clazz, prop => .ok (validators.instanceOf isInst className clazz prop)
  | .shapeD shapeObj strict, prop => .ok (shape shapeObj strict prop)
  | .rangeD mn mx, prop => .ok (validators.range mn mx prop)
  | .unknownD kind, _ => .error ("El tipo '" ++ kind ++ "' no es válido.")

/-! ### Helper lemmas -/

theorem anyAltOk_eq_any (s : Int) (v : Value) (ds : List FieldSpec) :
    anyAltOk s v ds = ds.any (fun d => altOk s v d) := by
  induction ds with
  | nil => simp [anyAltOk]
  | cons d rest ih => simp [anyAltOk, ih]

theorem anyAltOk_iff (s : Int) (v : Value) (ds : List FieldSpec) :
    anyAltOk s v ds = true ↔ ∃ d ∈ ds, altOk s v d = true := by
  simp [anyAltOk_eq_any]

theorem checkFields_ok_iff (s : Int) (pf : List (String × Value))
    (so : List (String × FieldSpec)) :
    checkFields s pf so = .ok ↔
      ∀ p ∈ so, anyAltOk s (getField pf p.1) (toAlts p.2) = true := by
  induction so with
  | nil => simp [checkFields]
  | cons p rest ih =>
    obtain ⟨key, spec⟩ := p
    by_cases h : anyAltOk s (getField pf key) (toAlts spec) = true
    · simp [checkFields, h, ih]
    · simp [checkFields, h]

theorem getField_not_mem (pf : List (String × Value)) (key : String)
    (h : key ∉ pf.map Prod.fst) : getField pf key = .undef := by
  induction pf with
  | nil => rfl
  | cons p rest ih =>
    obtain ⟨k, v⟩ := p
    simp only [List.map_cons, List.mem_cons] at h
    push_neg at h
    simp only [getField]
    rw [if_neg (fun hk => h.1 hk.symm)]
    exact ih h.2

theorem getField_cons_ne (k key : String) (v : Value) (pf : List (String × Value))
    (h : k ≠ key) : getField ((k, v) :: pf) key = getField pf key := by
  simp [getField, h]

theorem checkFields_cons_extend (s : Int) (k : String) (v : Value)
    (pf : List (String × Value)) (so : List (String × FieldSpec))
    (h : k ∉ so.map Prod.fst) :
    checkFields s ((k, v) :: pf) so = checkFields s pf so := by
  induction so with
  | nil => simp [checkFields]
  | cons p rest ih =>
    obtain ⟨key, spec⟩ := p
    simp only [List.map_cons, List.mem_cons] at h
    push_neg at h
    rw [checkFields, checkFields, getField_cons_ne k key v pf h.1, ih h.2]

/-! ### The claims -/

/-- The spec's reading of the primitive checks, for refinement: "`v`'s
runtime type matches `k` exactly", with the object check excluding arrays
and `null`. -/
def specTypeMatches (k : BasicKind) (v : Value) : Bool :=
  match k, v with
  | .string, .str _ => true
  | .number, .num _ => true
  | .bool, .bool _ => true
  | .array, .arr _ => true
  | .object, .obj _ => true
  | .undefined, .undef => true
  | .null, .null => true
  | .function, .func _ => true
  | _, _ => false

/-- C6: for every primitive kind `k` and value `v`, `validate(v, (kind k))`
succeeds iff `v`'s runtime type matches `k` exactly; in particular the
object check accepts exactly the non-null, non-array objects. -/
theorem validateBasic_ok_iff (k : BasicKind) (v : Value) :
    validateBasic k v = .ok ↔ specTypeMatches k v = true := by
  cases k <;> cases v <;>
    simp [validateBasic, specTypeMatches, validators.string, validators.number,
      validators.bool, validators.array, validators.object, validators.undefined,
      validators.null, validators.function]

/-- C3: for a non-empty options list, `oneOf` succeeds iff the value equals
one member of the options (strict equality, which the embedding renders as
structural equality on plain data), and on failure the message lists the
allowed options. -/
theorem oneOf_spec (options : List Value) (v : Value) (h : options ≠ []) :
    (validators.oneOf options v = .ok ↔ v ∈ options)
    ∧ (v ∉ options →
        validators.oneOf options v =
          .err ("El valor '" ++ jsToString v ++ "' no está entre las opciones permitidas: "
            ++ jsonTemplate (.arr options))) := by
  have hlen : ¬ options.length = 0 := by simpa [List.length_eq_zero] using h
  by_cases hm : v ∈ options
  · refine ⟨?_, fun hn => absurd hm hn⟩
    simp [validators.oneOf, hlen, List.elem_iff.mpr hm, hm]
  · have herr : validators.oneOf options v =
        .err ("El valor '" ++ jsToString v ++ "' no está entre las opciones permitidas: "
          ++ jsonTemplate (.arr options)) := by
      simp [validators.oneOf, hlen, hm]
    refine ⟨⟨fun hok => ?_, fun hmem => absurd hmem hm⟩, fun _ => herr⟩
    rw [herr] at hok
    exact VResult.noConfusion hok

/-- Closed instantiation of `oneOf_spec`. -/
theorem oneOf_spec_witness :
    validators.oneOf [Value.str "red", Value.str "green", Value.str "blue"]
      (Value.str "red") = .ok :=
  (oneOf_spec [Value.str "red", Value.str "green", Value.str "blue"]
    (Value.str "red") (by simp)).1.mpr (by simp)

/-- C9: for `min ≤ max`, `range` accepts exactly the numbers inside the
inclusive bound, rejects non-numbers, and names the bound `[min, max]` on an
out-of-range number; a descriptor with `min > max` is rejected with an
error result at call time, not a crash. -/
theorem range_spec (mn mx n : Int) (v : Value) :
    (mn ≤ mx →
      ((validators.range mn mx (.num n) = .ok ↔ mn ≤ n ∧ n ≤ mx)
        ∧ ((∀ m : Int, v ≠ .num m) →
            validators.range mn mx v =
              .err ("El valor '" ++ jsToString v ++ "' no es un número."))
        ∧ (¬ (mn ≤ n ∧ n ≤ mx) →
            validators.range mn mx (.num n) =
              .err ("El valor '" ++ toString n ++ "' no está dentro del rango esperado: ["
                ++ toString mn ++ ", " ++ toString mx ++ "]"))))
    ∧ (mn > mx →
        validators.range mn mx v = .err "El valor min no puede ser mayor que el valor max.") := by
  constructor
  · intro hle
    refine ⟨?_, ?_, ?_⟩
    · constructor
      · intro hok
        by_contra hout
        simp [validators.range, not_lt.mpr hle, show n < mn ∨ n > mx by omega] at hok
      · intro hin
        simp [validators.range, not_lt.mpr hle, show ¬ (n < mn ∨ n > mx) by omega,
          show n ≥ mn ∧ n ≤ mx by omega]
    · intro hnn
      cases v <;> simp [validators.range, not_lt.mpr hle] <;> exact absurd rfl (hnn _)
    · intro hout
      simp [validators.range, not_lt.mpr hle, show n < mn ∨ n > mx by omega]
  · intro hgt
    cases v <;> simp [validators.range, hgt]

/-- Closed instantiation of `range_spec`: 5 is inside [1, 10], 11 is
outside, and an inverted bound is rejected gracefully. -/
theorem range_spec_witness :
    validators.range 1 10 (.num 5) = .ok
    ∧ validators.range 1 10 (.num 11) =
        .err ("El valor '" ++ toString (11 : Int) ++ "' no está dentro del rango esperado: ["
          ++ toString (1 : Int) ++ ", " ++ toString (10 : Int) ++ "]")
    ∧ validators.range 10 1 (.num 5) = .err "El valor min no puede ser mayor que el valor max." :=
  ⟨(((range_spec 1 10 5 (.num 5)).1 (by decide)).1).mpr (by decide),
    ((range_spec 1 10 11 (.num 11)).1 (by decide)).2.2 (by decide),
    (range_spec 10 1 5 (.num 5)).2 (by decide)⟩

/-- C7: for a valid non-empty element-kind list, `arrayOf` rejects
non-arrays with the not-an-array message, accepts an array iff every
element satisfies at least one listed kind (so the empty array always
passes), and on failure lists the offending elements. -/
theorem arrayOf_spec (types : List BasicKind) (v : Value) (items : List Value)
    (h : types ≠ []) :
    ((∀ xs, v ≠ .arr xs) →
      validators.arrayOf types v =
        .err ("El valor '" ++ jsToString v ++ "' no es un arreglo."))
    ∧ (validators.arrayOf types (.arr items) = .ok ↔
        ∀ x ∈ items, ∃ k ∈ types, validateBasic k x = .ok)
    ∧ validators.arrayOf types (.arr []) = .ok
    ∧ (∀ invalid,
        invalid = items.filter
          (fun x => !(types.any (fun t => validateBasic t x == VResult.ok))) →
        invalid ≠ [] →
        validators.arrayOf types (.arr items) =
          .err ("El arreglo contiene elementos inválidos: " ++ jsonTemplate (.arr invalid))) := by
  have hlen : ¬ types.length = 0 := by simpa [List.length_eq_zero] using h
  refine ⟨?_, ?_, ?_, ?_⟩
  · intro hna
    cases v <;> simp [validators.arrayOf, hlen] <;> exact absurd rfl (hna _)
  · simp [validators.arrayOf, hlen, List.length_eq_zero, List.filter_eq_nil_iff]
  · simp [validators.arrayOf, hlen]
  · intro invalid hinv hne
    subst hinv
    simp [validators.arrayOf, hlen, List.length_eq_zero, hne]

/-- Closed instantiation of `arrayOf_spec`: the empty array satisfies any
non-empty element-kind list. -/
theorem arrayOf_spec_witness :
    validators.arrayOf [.string, .number] (.arr []) = .ok :=
  (arrayOf_spec [.string, .number] (.arr []) [] (by simp)).2.2.1

/-- C8: for a non-empty alternatives list, `oneOfType` succeeds iff some
alternative accepts the value; a single alternative delegates to its
validator unchanged; `oneOfType([string, number])` rejects `true` and
accepts `"x"` and `42`. -/
theorem oneOfType_spec (types : List BasicKind) (v : Value) (h : types ≠ []) :
    (validators.oneOfType types v = .ok ↔ ∃ k ∈ types, validateBasic k v = .ok)
    ∧ (∀ k, validators.oneOfType [k] v = validateBasic k v)
    ∧ validators.oneOfType [.string, .number] (.bool true) ≠ .ok
    ∧ validators.oneOfType [.string, .number] (.str "x") = .ok
    ∧ validators.oneOfType [.string, .number] (.num 42) = .ok := by
  refine ⟨?_, fun k => rfl, by decide, by decide, by decide⟩
  match types with
  | [t] => simp [validators.oneOfType]
  | t1 :: t2 :: ts =>
    by_cases hany : ((t1 :: t2 :: ts).any (fun t => validateBasic t v == VResult.ok)) = true
    · simp only [validators.oneOfType, hany, if_true]
      simpa using List.any_eq_true.mp hany
    · simp only [validators.oneOfType, hany, if_false, Bool.false_eq_true]
      constructor
      · intro hcontra
        exact VResult.noConfusion hcontra
      · intro hex
        exact absurd (List.any_eq_true.mpr (by simpa using hex)) hany

/-- Closed instantiation of `oneOfType_spec`: the single-member list
delegates directly. -/
theorem oneOfType_spec_witness :
    validators.oneOfType [BasicKind.string] (.str "x") = validateBasic .string (.str "x") :=
  (oneOfType_spec [BasicKind.string] (.str "x") (by simp)).2.1 .string

/-! ### Shape evaluation lemmas -/

theorem shape_zero_eq (so : List (String × FieldSpec)) (pf : List (String × Value)) :
    shape so 0 (.obj pf) = checkFields 0 pf so := by
  simp [shape]

theorem shape_one_eq (so : List (String × FieldSpec)) (pf : List (String × Value)) :
    shape so 1 (.obj pf) =
      (if ((pf.map Prod.fst).filter (fun k => !((so.map Prod.fst).contains k))).length > 0 then
        .err (extraKeysMsg ((pf.map Prod.fst).filter (fun k => !((so.map Prod.fst).contains k))))
      else if !((so.map Prod.fst).any (fun k => !(getField pf k == Value.undef))) then
        .err (atLeastOneKeyMsg (so.map Prod.fst))
      else checkFields 1 pf so) := by
  simp [shape]
  split_ifs with h1 h2 h3 <;> first | rfl | (exfalso; tauto)

theorem shape_two_eq (so : List (String × FieldSpec)) (pf : List (String × Value)) :
    shape so 2 (.obj pf) =
      (if (pf.map Prod.fst).length ≠ (so.map Prod.fst).length then
        .err (keyCountMsg (so.map Prod.fst) (pf.map Prod.fst))
      else if ((pf.map Prod.fst).filter (fun k => !((so.map Prod.fst).contains k))).length > 0 then
        .err (extraKeysMsg ((pf.map Prod.fst).filter (fun k => !((so.map Prod.fst).contains k))))
      else checkFields 2 pf so) := by
  simp [shape]

theorem filter_not_contains_len_zero_iff (pks ks : List String) :
    (pks.filter (fun k => !(ks.contains k))).length = 0 ↔ ∀ k ∈ pks, k ∈ ks := by
  rw [List.length_eq_zero, List.filter_eq_nil_iff]
  simp

theorem atLeastOne_iff (ks : List String) (pf : List (String × Value)) :
    (ks.any (fun k => !(getField pf k == Value.undef))) = true ↔
      ∃ k ∈ ks, getField pf k ≠ .undef := by
  simp [List.any_eq_true]

theorem keyset_eq_iff (pks ks : List String) (hp : pks.Nodup) (hk : ks.Nodup) :
    (pks.length = ks.length ∧ ∀ k ∈ pks, k ∈ ks) ↔ (∀ k, k ∈ pks ↔ k ∈ ks) := by
  constructor
  · rintro ⟨hlen, hsub⟩ k
    have hsp : pks.Subperm ks := List.subperm_of_subset hp (fun a ha => hsub a ha)
    have hperm : pks.Perm ks := hsp.perm_of_length_le (le_of_eq hlen.symm)
    exact hperm.mem_iff
  · intro hiff
    have h1 := (List.subperm_of_subset hp (fun a ha => (hiff a).mp ha)).length_le
    have h2 := (List.subperm_of_subset hk (fun a ha => (hiff a).mpr ha)).length_le
    exact ⟨le_antisymm h1 h2, fun k hk2 => (hiff k).mp hk2⟩

theorem shape_ok_checkFields (so : List (String × FieldSpec))
    (pf : List (String × Value)) (s : Int) (h : shape so s (.obj pf) = .ok) :
    checkFields s pf so = .ok := by
  simp only [shape] at h
  split_ifs at h
  exact h

/-- C2 counterexample: under Lenient strictness the missing declared field
`b` is validated against `undefined`, and the `number` validator rejects
`undefined`, so the spec's example fails instead of succeeding. -/
theorem shape_lenient_missing_field_fails :
    shape [("a", .basic .number), ("b", .basic .number)] 0 (.obj [("a", .num 1)])
      = .err (keyFailMsg "b" [.basic .number] .undef) := by
  simp [shape, checkFields, anyAltOk, altOk, toAlts, getField, validateBasic,
    validators.number]

/-- C2 (amended): under Lenient (strict 0) only declared fields are checked
— an unknown extra field never changes the result — and a missing declared
field is validated by applying its descriptor to `undefined` (absent keys
read as `undefined`); validation succeeds iff every declared field's
(possibly `undefined`) value satisfies one of that field's alternatives.
The spec's example `validate(a:1, shape(a:number, b:number, Lenient))` is
not among the successes, because `undefined` does not satisfy `number`. -/
theorem shape_lenient_spec (so : List (String × FieldSpec)) (pf : List (String × Value)) :
    (shape so 0 (.obj pf) = .ok ↔
      ∀ p ∈ so, anyAltOk 0 (getField pf p.1) (toAlts p.2) = true)
    ∧ (∀ k v, k ∉ so.map Prod.fst →
        shape so 0 (.obj ((k, v) :: pf)) = shape so 0 (.obj pf))
    ∧ (∀ key, key ∉ pf.map Prod.fst → getField pf key = .undef) := by
  refine ⟨?_, ?_, ?_⟩
  · rw [shape_zero_eq]
    exact checkFields_ok_iff 0 pf so
  · intro k v hk
    rw [shape_zero_eq, shape_zero_eq, checkFields_cons_extend 0 k v pf so hk]
  · exact fun key hkey => getField_not_mem pf key hkey

/-- Closed instantiation of `shape_lenient_spec`: a present declared field
that validates makes the Lenient shape succeed. -/
theorem shape_lenient_spec_witness :
    shape [("a", FieldSpec.basic .number)] 0 (.obj [("a", Value.num 1)]) = .ok :=
  (shape_lenient_spec [("a", FieldSpec.basic .number)] [("a", Value.num 1)]).1.mpr
    (by simp [anyAltOk, altOk, toAlts, getField, validateBasic, validators.number])

/-- C5: under NoExtra (strict 1), validation succeeds iff no field beyond
the declared ones is present, at least one declared field is present with a
non-`undefined` value, and every declared field satisfies its descriptor;
any undeclared field makes it fail with the extra-keys message. -/
theorem shape_noextra_spec (so : List (String × FieldSpec)) (pf : List (String × Value)) :
    (shape so 1 (.obj pf) = .ok ↔
      ((∀ k ∈ pf.map Prod.fst, k ∈ so.map Prod.fst)
        ∧ (∃ k ∈ so.map Prod.fst, getField pf k ≠ .undef)
        ∧ ∀ p ∈ so, anyAltOk 1 (getField pf p.1) (toAlts p.2) = true))
    ∧ (∀ extras,
        extras = (pf.map Prod.fst).filter (fun k => !((so.map Prod.fst).contains k)) →
        extras ≠ [] →
        shape so 1 (.obj pf) = .err (extraKeysMsg extras)) := by
  constructor
  · rw [shape_one_eq]
    by_cases hext :
        0 < ((pf.map Prod.fst).filter (fun k => !((so.map Prod.fst).contains k))).length
    · rw [if_pos hext]
      refine ⟨fun hc => (VResult.noConfusion hc), ?_⟩
      rintro ⟨hsub, -, -⟩
      have := (filter_not_contains_len_zero_iff (pf.map Prod.fst) (so.map Prod.fst)).mpr hsub
      omega
    · rw [if_neg hext]
      have hsub : ∀ k ∈ pf.map Prod.fst, k ∈ so.map Prod.fst :=
        (filter_not_contains_len_zero_iff (pf.map Prod.fst) (so.map Prod.fst)).mp (by omega)
      by_cases hone : ((so.map Prod.fst).any (fun k => !(getField pf k == Value.undef))) = true
      · rw [if_neg (by simp [hone])]
        rw [checkFields_ok_iff]
        exact ⟨fun hall => ⟨hsub, (atLeastOne_iff (so.map Prod.fst) pf).mp hone, hall⟩,
          fun h => h.2.2⟩
      · rw [if_pos (by simp [hone])]
        refine ⟨fun hc => (VResult.noConfusion hc), ?_⟩
        rintro ⟨-, hex, -⟩
        exact absurd ((atLeastOne_iff (so.map Prod.fst) pf).mpr hex) hone
  · intro extras hdef hne
    subst hdef
    rw [shape_one_eq, if_pos (List.length_pos.mpr hne)]

/-- Closed instantiation of `shape_noextra_spec`: one declared present field
satisfies NoExtra; an undeclared field fails it. -/
theorem shape_noextra_spec_witness :
    shape [("a", FieldSpec.basic .number)] 1 (.obj [("a", Value.num 1)]) = .ok
    ∧ shape [("a", FieldSpec.basic .number)] 1 (.obj [("b", Value.num 1)]) =
        .err (extraKeysMsg ["b"]) :=
  ⟨(shape_noextra_spec [("a", FieldSpec.basic .number)] [("a", Value.num 1)]).1.mpr
    (by refine ⟨?_, ?_, ?_⟩ <;>
      simp [getField, anyAltOk, altOk, toAlts, validateBasic, validators.number]),
  (shape_noextra_spec [("a", FieldSpec.basic .number)] [("b", Value.num 1)]).2 ["b"]
    (by simp) (by simp)⟩

/-- C4: under Exact (strict 2), for a plain object with duplicate-free keys
(as JavaScript objects are), validation succeeds iff the object's key set
equals the declared key set and every declared field satisfies its
descriptor; a key-count mismatch fails with the message citing both key
sets, and extra keys at equal count fail with the extra-keys message. -/
theorem shape_exact_spec (so : List (String × FieldSpec)) (pf : List (String × Value))
    (hpf : (pf.map Prod.fst).Nodup) (hso : (so.map Prod.fst).Nodup) :
    (shape so 2 (.obj pf) = .ok ↔
      ((∀ k, k ∈ pf.map Prod.fst ↔ k ∈ so.map Prod.fst)
        ∧ ∀ p ∈ so, anyAltOk 2 (getField pf p.1) (toAlts p.2) = true))
    ∧ ((pf.map Prod.fst).length ≠ (so.map Prod.fst).length →
        shape so 2 (.obj pf) = .err (keyCountMsg (so.map Prod.fst) (pf.map Prod.fst)))
    ∧ (∀ extras, (pf.map Prod.fst).length = (so.map Prod.fst).length →
        extras = (pf.map Prod.fst).filter (fun k => !((so.map Prod.fst).contains k)) →
        extras ≠ [] →
        shape so 2 (.obj pf) = .err (extraKeysMsg extras)) := by
  refine ⟨?_, ?_, ?_⟩
  · rw [shape_two_eq]
    by_cases hlen : (pf.map Prod.fst).length = (so.map Prod.fst).length
    · rw [if_neg (fun hc => hc hlen)]
      by_cases hext :
          0 < ((pf.map Prod.fst).filter (fun k => !((so.map Prod.fst).contains k))).length
      · rw [if_pos hext]
        refine ⟨fun hc => (VResult.noConfusion hc), ?_⟩
        rintro ⟨hiff, -⟩
        have hsub : ∀ k ∈ pf.map Prod.fst, k ∈ so.map Prod.fst := fun k hk => (hiff k).mp hk
        have := (filter_not_contains_len_zero_iff (pf.map Prod.fst) (so.map Prod.fst)).mpr hsub
        omega
      · rw [if_neg hext]
        have hsub : ∀ k ∈ pf.map Prod.fst, k ∈ so.map Prod.fst :=
          (filter_not_contains_len_zero_iff (pf.map Prod.fst) (so.map Prod.fst)).mp (by omega)
        rw [checkFields_ok_iff]
        exact ⟨fun hall => ⟨(keyset_eq_iff _ _ hpf hso).mp ⟨hlen, hsub⟩, hall⟩, fun h => h.2⟩
    · rw [if_pos hlen]
      refine ⟨fun hc => (VResult.noConfusion hc), ?_⟩
      rintro ⟨hiff, -⟩
      exact (hlen ((keyset_eq_iff _ _ hpf hso).mpr hiff).1).elim
  · intro hne
    rw [shape_two_eq, if_pos hne]
  · intro extras hlen hdef hne
    subst hdef
    rw [shape_two_eq, if_neg (fun hc => hc hlen), if_pos (List.length_pos.mpr hne)]

/-- Closed instantiation of `shape_exact_spec`: the spec's scenario object
with exactly the declared keys passes Exact; dropping `age` fails with the
key-count message. -/
theorem shape_exact_spec_witness :
    shape [("name", FieldSpec.basic .string), ("age", FieldSpec.basic .number)] 2
      (.obj [("name", Value.str "John"), ("age", Value.num 30)]) = .ok
    ∧ shape [("name", FieldSpec.basic .string), ("age", FieldSpec.basic .number)] 2
        (.obj [("name", Value.str "John")]) =
        .err (keyCountMsg ["name", "age"] ["name"]) :=
  ⟨(shape_exact_spec [("name", FieldSpec.basic .string), ("age", FieldSpec.basic .number)]
      [("name", Value.str "John"), ("age", Value.num 30)] (by simp) (by simp)).1.mpr
    (by constructor
        · intro k; simp
        · simp [anyAltOk, altOk, toAlts, getField, validateBasic, validators.string,
            validators.number]),
  (shape_exact_spec [("name", FieldSpec.basic .string), ("age", FieldSpec.basic .number)]
      [("name", Value.str "John")] (by simp) (by simp)).2.1 (by simp)⟩

/-- C10: a plain-object field descriptor (a nested shape) is validated with
the same strictness as the outer shape: the per-field alternative check on
`nested nf` is exactly `shape nf s` on the field's value, for every outer
strictness `s`; hence whenever the outer shape validates an object, each
nested-shape field's value validates under `shape(nf, s)`.  Concretely,
Exact propagates into the nested object (an extra nested key fails) while
Lenient lets the same value pass. -/
theorem shape_nested_strict_spec (s : Int) (nf : List (String × FieldSpec)) (v : Value) :
    (altOk s v (.nested nf) = true ↔ shape nf s v = .ok)
    ∧ (anyAltOk s v (toAlts (.nested nf)) = true ↔ shape nf s v = .ok)
    ∧ (∀ so pf k, (k, FieldSpec.nested nf) ∈ so → shape so s (.obj pf) = .ok →
        shape nf s (getField pf k) = .ok)
    ∧ shape [("a", .nested [("x", .basic .number)])] 2
        (.obj [("a", .obj [("x", .num 1), ("y", .num 2)])]) =
        .err (keyFailMsg "a" [.nested [("x", .basic .number)]]
          (.obj [("x", .num 1), ("y", .num 2)]))
    ∧ shape [("a", .nested [("x", .basic .number)])] 0
        (.obj [("a", .obj [("x", .num 1), ("y", .num 2)])]) = .ok := by
  refine ⟨by simp [altOk], by simp [anyAltOk, toAlts, altOk], ?_, ?_, ?_⟩
  · intro so pf k hmem hok
    have hcf := shape_ok_checkFields so pf s hok
    have hone := (checkFields_ok_iff s pf so).mp hcf (k, FieldSpec.nested nf) hmem
    simpa [anyAltOk, toAlts, altOk] using hone
  · simp [shape, checkFields, anyAltOk, altOk, toAlts, getField, validateBasic,
      validators.number]
  · simp [shape, checkFields, anyAltOk, altOk, toAlts, getField, validateBasic,
      validators.number]

/-- Closed instantiation of `shape_nested_strict_spec`: an outer success
yields a nested success at the same strictness. -/
theorem shape_nested_strict_spec_witness :
    shape [("x", FieldSpec.basic .number)] 0
      (getField [("a", Value.obj [("x", Value.num 1)])] "a") = .ok :=
  (shape_nested_strict_spec 0 [("x", FieldSpec.basic .number)]
      (Value.obj [("x", Value.num 1)])).2.2.1
    [("a", FieldSpec.nested [("x", FieldSpec.basic .number)])]
    [("a", Value.obj [("x", Value.num 1)])] "a" (by simp)
    (by simp [shape, checkFields, anyAltOk, altOk, toAlts, getField, validateBasic,
      validators.number])

/-- C1 counterexample: an empty `oneOf` options list — descriptor
construction misuse — is not thrown: `validateType` returns it through the
ordinary result channel, an `Except.ok` carrying an error message exactly
like a validation failure, not the `Except.error` (throw) channel. -/
theorem oneOf_empty_not_thrown :
    validateType (fun _ _ => false) (fun _ => "") (.oneOfD []) (.num 0)
      = Except.ok (.err "El array de opciones proporcionado a oneOf no puede estar vacío.") := rfl

/-- C1 (amended): every recognized descriptor is validated through the
result channel — validation failures and descriptor-construction misuse
(empty `oneOf` options, empty `arrayOf` kind list, non-function
`instanceOf` target, out-of-range strictness) alike come back as error
results, never thrown; only an unrecognized descriptor kind is thrown as a
fatal configuration error. -/
theorem validateType_error_channel (isInst : Value → Value → Bool)
    (className : Value → String) (d : Descriptor) (v : Value) (kind : String)
    (clazz : Value) (so : List (String × FieldSpec)) (s : Int) :
    ((∀ u, d ≠ .unknownD u) → ∃ r, validateType isInst className d v = .ok r)
    ∧ validateType isInst className (.oneOfD []) v =
        .ok (.err "El array de opciones proporcionado a oneOf no puede estar vacío.")
    ∧ validateType isInst className (.arrayOfD []) v =
        .ok (.err "El array de tipos proporcionado a arrayOf no puede estar vacío.")
    ∧ ((∀ i, clazz ≠ .func i) →
        validateType isInst className (.instanceOfD clazz) v =
          .ok (.err "El validador instanceOf no es válido. Se esperaba una clase."))
    ∧ ((s < 0 ∨ s > 2) → ∀ pf, validateType isInst className (.shapeD so s) (.obj pf) =
        .ok (.err strictInvalidMsg))
    ∧ validateType isInst className (.unknownD kind) v =
        .error ("El tipo '" ++ kind ++ "' no es válido.") := by
  refine ⟨?_, rfl, rfl, ?_, ?_, rfl⟩
  · intro hu
    cases d with
    | unknownD u => exact absurd rfl (hu u)
    | basic k => exact ⟨_, rfl⟩
    | arrayOfD ts => exact ⟨_, rfl⟩
    | oneOfD os => exact ⟨_, rfl⟩
    | oneOfTypeD ts => exact ⟨_, rfl⟩
    | instanceOfD c => exact ⟨_, rfl⟩
    | shapeD so2 s2 => exact ⟨_, rfl⟩
    | rangeD mn mx => exact ⟨_, rfl⟩
  · intro hcl
    cases clazz with
    | func i => exact absurd rfl (hcl i)
    | str a => rfl
    | num a => rfl
    | bool a => rfl
    | arr a => rfl
    | obj a => rfl
    | undef => rfl
    | null => rfl
  · intro hs pf
    show Except.ok (shape so s (.obj pf)) = Except.ok (VResult.err strictInvalidMsg)
    congr 1
    simp only [shape]
    rw [if_pos hs]

/-- Closed instantiation of `validateType_error_channel`: a recognized
descriptor returns a result; a non-function `instanceOf` target and an
out-of-range strictness come back as error results, not throws. -/
theorem validateType_error_channel_witness :
    (∃ r, validateType (fun _ _ => false) (fun _ => "") (.basic .string) (.str "a") = .ok r)
    ∧ validateType (fun _ _ => false) (fun _ => "") (.instanceOfD .null) (.num 0) =
        .ok (.err "El validador instanceOf no es válido. Se esperaba una clase.")
    ∧ validateType (fun _ _ => false) (fun _ => "") (.shapeD [] 5) (.obj []) =
        .ok (.err strictInvalidMsg) :=
  ⟨(validateType_error_channel (fun _ _ => false) (fun _ => "") (.basic .string)
      (.str "a") "k" .null [] 0).1 (fun u => by simp),
  (validateType_error_channel (fun _ _ => false) (fun _ => "") (.basic .string)
      (.num 0) "k" .null [] 0).2.2.2.1 (fun i => by simp),
  (validateType_error_channel (fun _ _ => false) (fun _ => "") (.basic .string)
      (.num 0) "k" .null [] 5).2.2.2.2.1 (by omega) []⟩

end UsePropTypes
